import Mathlib

/-!
# sconsole: a shallow embedding of `sconsole.c`

The file embeds the parts of `sconsole.c` that decide the behaviour of the
serial console bridge:

* `text2speed` (lines 83-98), on top of the C library's `atoi`;
* the validity table `valid[256]` and its two initialisations (lines 158-172);
* the option loop of `main` (lines 166-194);
* the event loop of `main` together with its exit path (lines 213-276).

What the event loop does to the outside world is recorded as a trace of
`Event`s; what the outside world answers (what `poll` reports, what `read`
returns, what `open` returns) is an explicit input.  The option loop is embedded
for its effect on the variables of `main`; its diagnostics on `stderr` are not
recorded.  Calls of `write`, `tcsendbreak`, `tcsetattr` and `tcflush` are taken
to succeed; the program ignores their return values.
-/

namespace Sconsole

/-! ## Baud rates and `text2speed` -/

/-- The symbolic line speeds of `<termios.h>` that the program mentions.  Their
numeric values are platform constants and are kept symbolic. -/
inductive speed_t
  | B9600
  | B19200
  | B38400
  | B57600
  | B115200
  deriving DecidableEq, Repr

/-- C `isspace` in the "C" locale: space, `\t`, `\n`, `\v`, `\f`, `\r`. -/
def isspace (c : Char) : Bool :=
  c.toNat = 32 || (9 ≤ c.toNat && c.toNat ≤ 13)

/-- The decimal digits at the front of `s`, accumulated onto `acc`; stops at
the first character that is not a digit (also at the terminating NUL). -/
def digitsValue (acc : Nat) : List Char → Nat
  | [] => acc
  | c :: cs =>
    if 48 ≤ c.toNat ∧ c.toNat ≤ 57 then digitsValue (acc * 10 + (c.toNat - 48)) cs else acc

/-- Smallest value of a 64-bit `long`. -/
def LONG_MIN : Int := -(2 ^ 63)

/-- Largest value of a 64-bit `long`. -/
def LONG_MAX : Int := 2 ^ 63 - 1

/-- C library `strtol(s, NULL, 10)` with a 64-bit `long`: leading white space
is skipped, one optional sign is read, then decimal digits; a value out of
range saturates. -/
def strtol (s : List Char) : Int :=
  match s.dropWhile isspace with
  | [] => 0
  | c :: cs =>
    if c.toNat = 45 then max LONG_MIN (-(digitsValue 0 cs : Int))
    else if c.toNat = 43 then min LONG_MAX (digitsValue 0 cs : Int)
    else min LONG_MAX (digitsValue 0 (c :: cs) : Int)

/-- Conversion of a `long` to a 32-bit `int` (two's complement wrap-around). -/
def toInt32 (z : Int) : Int :=
  (z + 2 ^ 31) % 2 ^ 32 - 2 ^ 31

/-- C library `atoi`, which is `(int) strtol(s, NULL, 10)`. -/
def atoi (s : String) : Int :=
  toInt32 (strtol s.data)

/-- The function `text2speed` (lines 83-98): the `switch` on `atoi(s)`. -/
def text2speed (s : String) : speed_t :=
  let n := atoi s
  if n = 115200 then speed_t.B115200
  else if n = 38400 then speed_t.B38400
  else if n = 19200 then speed_t.B19200
  else if n = 9600 then speed_t.B9600
  else speed_t.B115200

/-! ## The validity table -/

/-- A counted loop `for (n = lo; n < lo + len; n++) valid[n] = 1;`. -/
def setRange (valid : List Nat) (lo len : Nat) : List Nat :=
  (List.range' lo len).foldl (fun v n => v.set n 1) valid

/-- The table `static unsigned char valid[256]` before `main` runs: all zero. -/
def validStatic : List Nat := List.replicate 256 0

/-- Lines 158-164: printable ASCII `' ' .. 126`, then backspace, tab, newline
and carriage return. -/
def validInit : List Nat :=
  ((((setRange validStatic 32 (127 - 32)).set 8 1).set 9 1).set 10 1).set 13 1

/-- Lines 170-171 (option `-t`): `for (n = 0; n < 256; n++) valid[n] = 1;`. -/
def validTransparent (valid : List Nat) : List Nat :=
  setRange valid 0 256

/-! ## Options -/

/-- What one call of `getopt(argc, argv, "tl::d:b:h")` can deliver: the option
character with its argument.  `other` stands for `'?'` (an unknown option or a
missing argument). -/
inductive Opt
  | t
  | l (optarg : Option String)
  | d (optarg : String)
  | b (optarg : String)
  | h
  | other
  deriving DecidableEq, Repr

/-- The variables of `main` that the option loop sets, together with the
global `valid`. -/
structure Vars where
  valid : List Nat
  speed : speed_t
  device : String
  logfile : String
  logfd : Int
  deriving DecidableEq, Repr

/-- The values at line 165, before the first `getopt`. -/
def initVars : Vars :=
  { valid := validInit
    speed := speed_t.B115200
    device := "/dev/ttyUSB0"
    logfile := "console.log"
    logfd := -1 }

/-- The body of the option `switch` (lines 167-193).  `sys_open path` is the
descriptor that `open(path, O_CREAT | O_WRONLY, 0644)` returns (`-1` on
failure).  `Except.error 1` is the `return 1` after `usage`. -/
def optionCase (sys_open : String → Int) (v : Vars) : Opt → Except Int Vars
  | Opt.t => Except.ok { v with valid := validTransparent v.valid }
  | Opt.l optarg =>
    let logfile := match optarg with
      | some a => a
      | none => v.logfile
    Except.ok { v with logfile := logfile, logfd := sys_open logfile }
  | Opt.d optarg => Except.ok { v with device := optarg }
  | Opt.b optarg => Except.ok { v with speed := text2speed optarg }
  | Opt.h => Except.error 1
  | Opt.other => Except.error 1

/-- The loop `while ((ch = getopt(...)) != -1)` (lines 166-194) over the options
that `getopt` delivers, in order. -/
def getoptLoop (sys_open : String → Int) (v : Vars) : List Opt → Except Int Vars
  | [] => Except.ok v
  | o :: rest =>
    match optionCase sys_open v o with
    | Except.ok v1 => getoptLoop sys_open v1 rest
    | Except.error rc => Except.error rc

/-! ## The event loop -/

/-- The flag `POLLIN` of `<poll.h>`. -/
def POLLIN : Nat := 0x001

/-- The flag `POLLERR` of `<poll.h>`. -/
def POLLERR : Nat := 0x008

/-- The flag `POLLHUP` of `<poll.h>`. -/
def POLLHUP : Nat := 0x010

/-- Line 128: `#define STATE_IDLE 0` (Idle). -/
def STATE_IDLE : Nat := 0

/-- Line 129: `#define STATE_PREFIX 1` (SawOneEscape). -/
def STATE_PREFIX : Nat := 1

/-- Line 130: `#define STATE_COMMAND 2` (InCommand). -/
def STATE_COMMAND : Nat := 2

/-- The local `unsigned char ESC = 27`. -/
def ESC : UInt8 := 27

/-- What the program does to the outside world. -/
inductive Event
  /-- The call `read(0, &x, 1)`. -/
  | read_stdin
  /-- The call `read(fd, &x, 1)`. -/
  | read_serial
  /-- The call `write(fd, &c, 1)`: one byte to the serial device. -/
  | write_serial (c : UInt8)
  /-- The call `tcsendbreak(fd, 0)`. -/
  | tcsendbreak
  /-- The call `write(1, &x, 1)`: one byte to the local display. -/
  | write_stdout (c : UInt8)
  /-- The call `write(logfd, &x, 1)`: one byte to the log. -/
  | write_log (c : UInt8)
  /-- The call `fprintf(stderr, msg)`. -/
  | stderr (msg : String)
  /-- The call `tcsetattr(0, TCSANOW, &tio_save)`. -/
  | tcsetattr_saved
  /-- The call `tcflush(0, TCIFLUSH)`. -/
  | tcflush_stdin
  deriving DecidableEq, Repr

/-- The outcome of `poll(fds, 2, -1)`: a failure (`-1`, `revents` not looked
at), or success with the `revents` of the console (`fds[0]`) and of the serial
device (`fds[1]`). -/
inductive PollResult
  | fail
  | ok (revents0 revents1 : Nat)
  deriving DecidableEq, Repr

/-- The return value of `poll`: on success the number of descriptors whose
`revents` is not zero. -/
def PollResult.ret : PollResult → Int
  | PollResult.fail => -1
  | PollResult.ok r0 r1 => (if r0 = 0 then 0 else 1) + (if r1 = 0 then 0 else 1)

/-- What the outside world answers during one iteration of the loop.
`rd0 = some c` means that `read(0, &x, 1)`, if called, returns `1` and stores
`c`; `none` means it returns something else.  Likewise `rd1` for
`read(fd, &x, 1)`. -/
structure Input where
  poll : PollResult
  rd0 : Option UInt8
  rd1 : Option UInt8
  deriving DecidableEq, Repr

/-- The effect of a piece of the loop body: the events, the new value of
`escape`, and whether control left the loop (`break` or `goto done`). -/
structure Step where
  out : List Event
  escape : Nat
  done : Bool
  deriving DecidableEq, Repr

/-- The `switch (escape)` of lines 226-262, for the byte `x` read from the
console. -/
def escapeSwitch (escape : Nat) (x : UInt8) : Step :=
  match escape with
  | 0 =>
    if x = 27 then { out := [], escape := 1, done := false }
    else { out := [Event.write_serial x], escape := 0, done := false }
  | 1 =>
    if x = 27 then
      { out := [Event.stderr "\n[ (b)reak? e(x)it? ]\n"], escape := 2, done := false }
    else
      { out := [Event.write_serial ESC, Event.write_serial x], escape := 0, done := false }
  | 2 =>
    if x = 27 then { out := [Event.write_serial x], escape := 0, done := false }
    else if x = 98 then
      { out := [Event.stderr "[ break ]\n", Event.tcsendbreak], escape := 0, done := false }
    else if x = 120 then { out := [Event.stderr "[ exit ]\n"], escape := 0, done := true }
    else { out := [Event.stderr "[ huh? ]\n"], escape := 0, done := false }
  | _ => { out := [], escape := escape, done := false }

/-- Lines 225-263: `if ((fds[0].revents & POLLIN) && (read(0, &x, 1) == 1))`. -/
def consolePart (escape : Nat) (revents0 : Nat) (rd0 : Option UInt8) : Step :=
  if revents0 &&& POLLIN ≠ 0 then
    match rd0 with
    | some x =>
      let s := escapeSwitch escape x
      { s with out := Event.read_stdin :: s.out }
    | none => { out := [Event.read_stdin], escape := escape, done := false }
  else { out := [], escape := escape, done := false }

/-- Lines 264-270: `if ((fds[1].revents & POLLIN) && (read(fd, &x, 1) == 1))`. -/
def serialPart (v : Vars) (revents1 : Nat) (rd1 : Option UInt8) : List Event :=
  if revents1 &&& POLLIN ≠ 0 then
    match rd1 with
    | some x =>
      let x := if v.valid.getD x.toNat 0 = 0 then 46 else x
      Event.read_serial :: Event.write_stdout x ::
        (if v.logfd ≠ -1 then [Event.write_log x] else [])
    | none => [Event.read_serial]
  else []

/-- One iteration of `for (;;)` (lines 214-271). -/
def iteration (v : Vars) (escape : Nat) (i : Input) : Step :=
  match i.poll with
  | PollResult.fail => { out := [], escape := escape, done := false }
  | PollResult.ok r0 r1 =>
    if 0 < (PollResult.ok r0 r1).ret then
      if r0 &&& (POLLERR ||| POLLHUP) ≠ 0 then
        { out := [Event.stderr "\n[ stdin port closed ]\n"], escape := escape, done := true }
      else if r1 &&& (POLLERR ||| POLLHUP) ≠ 0 then
        { out := [Event.stderr "\n[ serial port closed ]\n"], escape := escape, done := true }
      else
        let c := consolePart escape r0 i.rd0
        if c.done then c
        else { c with out := c.out ++ serialPart v r1 i.rd1 }
    else { out := [], escape := escape, done := false }

/-- The function `stdin_raw_restore` (lines 69-73). -/
def stdin_raw_restore : List Event :=
  [Event.tcsetattr_saved, Event.tcflush_stdin]

/-- What is known of a run of the loop: the events so far, the value of
`escape`, and the exit status once `main` has returned (`none` while the loop
is still waiting in `poll`). -/
structure Result where
  trace : List Event
  escape : Nat
  status : Option Int
  deriving DecidableEq, Repr

/-- The loop `for (;;)` of lines 213-272 followed by `done:` (lines 274-276),
run against the answers `inputs` of the outside world, one per iteration. -/
def eventLoop (v : Vars) : Nat → List Input → Result
  | escape, [] => { trace := [], escape := escape, status := none }
  | escape, i :: rest =>
    let s := iteration v escape i
    if s.done then
      { trace := s.out ++ stdin_raw_restore, escape := s.escape, status := some 0 }
    else
      let r := eventLoop v s.escape rest
      { r with trace := s.out ++ r.trace }

/-! ## Reading a trace -/

/-- The bytes the serial device receives, in order. -/
def serialBytes : List Event → List UInt8
  | [] => []
  | Event.write_serial c :: es => c :: serialBytes es
  | _ :: es => serialBytes es

/-- The bytes written to the local display, in order. -/
def displayBytes : List Event → List UInt8
  | [] => []
  | Event.write_stdout c :: es => c :: displayBytes es
  | _ :: es => displayBytes es

/-- The bytes written to the log, in order. -/
def logBytes : List Event → List UInt8
  | [] => []
  | Event.write_log c :: es => c :: logBytes es
  | _ :: es => logBytes es

/-- The number of break conditions issued on the serial device. -/
def breakCount (es : List Event) : Nat :=
  es.count Event.tcsendbreak

/-- The number of `read` calls, on either descriptor. -/
def readCount (es : List Event) : Nat :=
  es.count Event.read_stdin + es.count Event.read_serial

/-- An iteration in which only the console is readable and `read` delivers the
byte `c`. -/
def key (c : UInt8) : Input :=
  { poll := PollResult.ok POLLIN 0, rd0 := some c, rd1 := none }

/-- An iteration in which only the serial device is readable and `read`
delivers the byte `c`. -/
def fromDevice (c : UInt8) : Input :=
  { poll := PollResult.ok 0 POLLIN, rd0 := none, rd1 := some c }

/-! ## The log file -/

/-- An open file: its content and the file offset of the descriptor. -/
structure OpenFile where
  content : List UInt8
  offset : Nat
  deriving DecidableEq, Repr

/-- The call `open(logfile, O_CREAT | O_WRONLY, 0644)` of line 179 on a
writable path: a missing file is created empty, an existing file keeps its
content (no `O_TRUNC`), and the offset starts at `0` (no `O_APPEND`). -/
def openLog (existing : Option (List UInt8)) : OpenFile :=
  { content := existing.getD [], offset := 0 }

/-- The call `write(logfd, &x, 1)` on a descriptor opened without `O_APPEND`:
the byte goes to the current offset, replacing the byte there or extending the
file, and the offset advances by one. -/
def writeByte (f : OpenFile) (c : UInt8) : OpenFile :=
  { content := f.content.take f.offset ++ c :: f.content.drop (f.offset + 1)
    offset := f.offset + 1 }

/-- The content of the log file after a session with trace `es`, when the file
was `existing` at the time of `open`. -/
def logFileAfter (existing : Option (List UInt8)) (es : List Event) : List UInt8 :=
  ((logBytes es).foldl writeByte (openLog existing)).content

/-! ## Auxiliary facts about the event loop -/

theorem iteration_key (v : Vars) (escape : Nat) (c : UInt8) :
    iteration v escape (key c) =
      { out := Event.read_stdin :: (escapeSwitch escape c).out
        escape := (escapeSwitch escape c).escape
        done := (escapeSwitch escape c).done } := by
  cases hd : (escapeSwitch escape c).done <;>
    simp [iteration, key, PollResult.ret, consolePart, serialPart, POLLIN, POLLERR, POLLHUP, hd]

theorem eventLoop_key_continue (v : Vars) (escape : Nat) (c : UInt8) (rest : List Input)
    (hd : (escapeSwitch escape c).done = false) :
    eventLoop v escape (key c :: rest) =
      { trace := Event.read_stdin :: (escapeSwitch escape c).out ++
          (eventLoop v (escapeSwitch escape c).escape rest).trace
        escape := (eventLoop v (escapeSwitch escape c).escape rest).escape
        status := (eventLoop v (escapeSwitch escape c).escape rest).status } := by
  simp [eventLoop, iteration_key, hd]

theorem serialBytes_append (xs ys : List Event) :
    serialBytes (xs ++ ys) = serialBytes xs ++ serialBytes ys := by
  induction xs with
  | nil => rfl
  | cons e es ih => cases e <;> simp [serialBytes, ih]

theorem serialBytes_serialPart (v : Vars) (r1 : Nat) (rd1 : Option UInt8) :
    serialBytes (serialPart v r1 rd1) = [] := by
  unfold serialPart
  split
  · cases rd1 with
    | none => rfl
    | some x => by_cases hl : v.logfd = -1 <;> simp [serialBytes, hl]
  · rfl

theorem breakCount_cons_read (es : List Event) :
    breakCount (Event.read_stdin :: es) = breakCount es := by
  simp [breakCount]

theorem breakCount_cons_write (c : UInt8) (es : List Event) :
    breakCount (Event.write_serial c :: es) = breakCount es := by
  simp [breakCount]

/-- The run of the loop on keystrokes `s` that hold no `ESC ESC` and do not end
in ESC: from Idle the device receives `s`; from SawOneEscape, when `s` starts
with a byte other than ESC, the device receives ESC followed by `s`. -/
theorem eventLoop_keys_aux (v : Vars) (s : List UInt8) :
    (¬ [ESC, ESC] <:+: s → s.getLast? ≠ some ESC →
      serialBytes (eventLoop v 0 (s.map key)).trace = s ∧
      breakCount (eventLoop v 0 (s.map key)).trace = 0 ∧
      (eventLoop v 0 (s.map key)).status = none ∧
      (eventLoop v 0 (s.map key)).escape = 0) ∧
    (¬ [ESC, ESC] <:+: s → s.getLast? ≠ some ESC → s.head? ≠ some ESC → s ≠ [] →
      serialBytes (eventLoop v 1 (s.map key)).trace = ESC :: s ∧
      breakCount (eventLoop v 1 (s.map key)).trace = 0 ∧
      (eventLoop v 1 (s.map key)).status = none ∧
      (eventLoop v 1 (s.map key)).escape = 0) := by
  induction s with
  | nil =>
    refine ⟨fun _ _ => ?_, fun _ _ _ h => absurd rfl h⟩
    simp [eventLoop, serialBytes, breakCount]
  | cons b rest ih =>
    obtain ⟨ih0, ih1⟩ := ih
    have hlast : (b :: rest).getLast? ≠ some ESC → rest.getLast? ≠ some ESC := by
      intro h hr
      cases rest with
      | nil => simp at hr
      | cons c cs => exact h (by rw [List.getLast?_cons_cons]; exact hr)
    have hinf : ¬ [ESC, ESC] <:+: b :: rest → ¬ [ESC, ESC] <:+: rest :=
      fun h hr => h (List.infix_cons hr)
    constructor
    · intro hno hl
      by_cases hb : b = 27
      · subst hb
        have hne : rest ≠ [] := by
          intro h0
          subst h0
          exact hl rfl
        have hhd : rest.head? ≠ some ESC := by
          intro hh
          cases rest with
          | nil => exact hne rfl
          | cons c cs =>
            simp only [List.head?_cons, Option.some.injEq] at hh
            subst hh
            exact hno ⟨[], cs, rfl⟩
        obtain ⟨h1, h2, h3, h4⟩ := ih1 (hinf hno) (hlast hl) hhd hne
        have hd : (escapeSwitch 0 27).done = false := by simp [escapeSwitch]
        have he : (escapeSwitch 0 27).escape = 1 := by simp [escapeSwitch]
        have ho : (escapeSwitch 0 27).out = [] := by simp [escapeSwitch]
        rw [List.map_cons, eventLoop_key_continue v 0 27 _ hd, he, ho]
        refine ⟨?_, ?_, h3, h4⟩
        · simpa [serialBytes] using h1
        · simpa [breakCount_cons_read] using h2
      · obtain ⟨h1, h2, h3, h4⟩ := ih0 (hinf hno) (hlast hl)
        have hd : (escapeSwitch 0 b).done = false := by simp [escapeSwitch, hb]
        have he : (escapeSwitch 0 b).escape = 0 := by simp [escapeSwitch, hb]
        have ho : (escapeSwitch 0 b).out = [Event.write_serial b] := by simp [escapeSwitch, hb]
        rw [List.map_cons, eventLoop_key_continue v 0 b _ hd, he, ho]
        refine ⟨?_, ?_, h3, h4⟩
        · simpa [serialBytes] using h1
        · simpa [breakCount_cons_read, breakCount_cons_write] using h2
    · intro hno hl hhd _
      have hb : b ≠ 27 := by
        intro h27
        exact hhd (by rw [h27]; rfl)
      obtain ⟨h1, h2, h3, h4⟩ := ih0 (hinf hno) (hlast hl)
      have hd : (escapeSwitch 1 b).done = false := by simp [escapeSwitch, hb]
      have he : (escapeSwitch 1 b).escape = 0 := by simp [escapeSwitch, hb]
      have ho : (escapeSwitch 1 b).out = [Event.write_serial ESC, Event.write_serial b] := by
        simp [escapeSwitch, hb]
      rw [List.map_cons, eventLoop_key_continue v 1 b _ hd, he, ho]
      refine ⟨?_, ?_, h3, h4⟩
      · simpa [serialBytes] using h1
      · simpa [breakCount_cons_read, breakCount_cons_write] using h2

/-! ## Auxiliary facts about the validity table -/

theorem getD_set_one (valid : List Nat) (n i : Nat) :
    (valid.set n 1).getD i 0 = if n = i ∧ i < valid.length then 1 else valid.getD i 0 := by
  simp only [List.getD_eq_getElem?_getD, List.getElem?_set]
  by_cases hn : n = i
  · subst hn
    by_cases hl : n < valid.length
    · simp [hl]
    · simp [hl, List.getElem?_eq_none (Nat.le_of_not_lt hl)]
  · simp [hn]

theorem length_setRange (valid : List Nat) (lo len : Nat) :
    (setRange valid lo len).length = valid.length := by
  induction len generalizing valid lo with
  | zero => simp [setRange]
  | succ k ih =>
    have := ih (valid.set lo 1) (lo + 1)
    simpa [setRange, List.range'_succ] using this

theorem getD_setRange (valid : List Nat) (lo len i : Nat) :
    (setRange valid lo len).getD i 0 =
      if lo ≤ i ∧ i < lo + len ∧ i < valid.length then 1 else valid.getD i 0 := by
  induction len generalizing valid lo with
  | zero =>
    have h2 : ¬ (lo ≤ i ∧ i < lo + 0 ∧ i < valid.length) := by omega
    rw [if_neg h2]
    simp [setRange]
  | succ k ih =>
    have h := ih (valid.set lo 1) (lo + 1)
    have e : setRange valid lo (k + 1) = setRange (valid.set lo 1) (lo + 1) k := by
      simp [setRange, List.range'_succ]
    rw [e, h, getD_set_one, List.length_set]
    by_cases h1 : lo + 1 ≤ i ∧ i < lo + 1 + k ∧ i < valid.length
    · have h2 : lo ≤ i ∧ i < lo + (k + 1) ∧ i < valid.length := by omega
      rw [if_pos h1, if_pos h2]
    · rw [if_neg h1]
      by_cases h3 : lo = i ∧ i < valid.length
      · have h2 : lo ≤ i ∧ i < lo + (k + 1) ∧ i < valid.length := by omega
        rw [if_pos h3, if_pos h2]
      · have h2 : ¬ (lo ≤ i ∧ i < lo + (k + 1) ∧ i < valid.length) := by omega
        rw [if_neg h3, if_neg h2]

theorem length_validStatic : validStatic.length = 256 := by
  unfold validStatic
  rw [List.length_replicate]

theorem getD_validInit (i : Nat) :
    validInit.getD i 0 =
      if (32 ≤ i ∧ i ≤ 126) ∨ i = 8 ∨ i = 9 ∨ i = 10 ∨ i = 13 then 1 else 0 := by
  have hs : validStatic.getD i 0 = 0 := by
    unfold validStatic
    rw [List.getD_eq_getElem?_getD, List.getElem?_replicate]
    split <;> rfl
  simp only [validInit, getD_set_one, getD_setRange, List.length_set, length_setRange, hs,
    length_validStatic]
  by_cases h : (32 ≤ i ∧ i ≤ 126) ∨ i = 8 ∨ i = 9 ∨ i = 10 ∨ i = 13
  · rw [if_pos h]
    split_ifs <;> first | rfl | omega
  · rw [if_neg h]
    split_ifs <;> first | rfl | omega

theorem iteration_fromDevice (v : Vars) (escape : Nat) (c : UInt8) :
    iteration v escape (fromDevice c) =
      { out := serialPart v POLLIN (some c), escape := escape, done := false } := by
  simp [iteration, fromDevice, PollResult.ret, consolePart, POLLIN, POLLERR, POLLHUP]

/-! ## The escape state machine -/

/-- C1: for every byte `b` other than ESC, the console bytes `[ESC, b]` fed from
Idle make the serial device receive exactly `[ESC, b]` in that order; the trace
holds nothing but the two reads and the two writes (no break, no exit), and the
state afterwards is Idle. -/
theorem esc_then_byte_forwards_both (v : Vars) (b : UInt8) (hb : b ≠ ESC) :
    eventLoop v STATE_IDLE [key ESC, key b] =
      { trace := [Event.read_stdin, Event.read_stdin,
                  Event.write_serial ESC, Event.write_serial b]
        escape := STATE_IDLE
        status := none } ∧
    serialBytes (eventLoop v STATE_IDLE [key ESC, key b]).trace = [ESC, b] ∧
    breakCount (eventLoop v STATE_IDLE [key ESC, key b]).trace = 0 := by
  have hb27 : b ≠ 27 := hb
  have h : eventLoop v STATE_IDLE [key ESC, key b] =
      { trace := [Event.read_stdin, Event.read_stdin,
                  Event.write_serial ESC, Event.write_serial b]
        escape := STATE_IDLE
        status := none } := by
    simp [eventLoop, iteration_key, escapeSwitch, STATE_IDLE, ESC, hb27]
  refine ⟨h, ?_, ?_⟩
  · rw [h]; rfl
  · rw [h]; simp [breakCount]

theorem esc_then_byte_forwards_both_witness :
    (65 : UInt8) ≠ ESC ∧
    (eventLoop initVars STATE_IDLE [key ESC, key 65] =
      { trace := [Event.read_stdin, Event.read_stdin,
                  Event.write_serial ESC, Event.write_serial 65]
        escape := STATE_IDLE
        status := none } ∧
    serialBytes (eventLoop initVars STATE_IDLE [key ESC, key 65]).trace = [ESC, 65] ∧
    breakCount (eventLoop initVars STATE_IDLE [key ESC, key 65]).trace = 0) :=
  ⟨by decide, esc_then_byte_forwards_both initVars 65 (by decide)⟩

/-- C2: for every byte `b` other than ESC read from the console while the state
is Idle, whatever the validity table of `v` is (default, transparent or any
other) and whatever the serial side delivers in the same iteration, the serial
device receives exactly the single byte `b`, the state stays Idle and the loop
goes on. -/
theorem idle_byte_forwarded_unchanged (v : Vars) (b : UInt8) (hb : b ≠ ESC)
    (r0 r1 : Nat) (rd1 : Option UInt8)
    (hin : r0 &&& POLLIN ≠ 0)
    (he0 : r0 &&& (POLLERR ||| POLLHUP) = 0)
    (he1 : r1 &&& (POLLERR ||| POLLHUP) = 0) :
    serialBytes (iteration v STATE_IDLE
      { poll := PollResult.ok r0 r1, rd0 := some b, rd1 := rd1 }).out = [b] ∧
    (iteration v STATE_IDLE
      { poll := PollResult.ok r0 r1, rd0 := some b, rd1 := rd1 }).escape = STATE_IDLE ∧
    (iteration v STATE_IDLE
      { poll := PollResult.ok r0 r1, rd0 := some b, rd1 := rd1 }).done = false := by
  have hb27 : b ≠ 27 := hb
  have hr0 : r0 ≠ 0 := by
    intro h0
    apply hin
    rw [h0]
    simp
  have hret : 0 < (PollResult.ok r0 r1).ret := by
    simp only [PollResult.ret, if_neg hr0]
    split <;> decide
  have hc : consolePart STATE_IDLE r0 (some b) =
      { out := [Event.read_stdin, Event.write_serial b], escape := STATE_IDLE, done := false } := by
    simp [consolePart, hin, escapeSwitch, STATE_IDLE, hb27]
  simp only [iteration, if_pos hret, he0, he1, hc]
  simp [serialBytes_append, serialBytes_serialPart, serialBytes]

theorem idle_byte_forwarded_unchanged_witness :
    (1 : UInt8) ≠ ESC ∧ POLLIN &&& POLLIN ≠ 0 ∧
    POLLIN &&& (POLLERR ||| POLLHUP) = 0 ∧
    (serialBytes (iteration initVars STATE_IDLE
      { poll := PollResult.ok POLLIN POLLIN, rd0 := some 1, rd1 := some 1 }).out = [1] ∧
    (iteration initVars STATE_IDLE
      { poll := PollResult.ok POLLIN POLLIN, rd0 := some 1, rd1 := some 1 }).escape
        = STATE_IDLE ∧
    (iteration initVars STATE_IDLE
      { poll := PollResult.ok POLLIN POLLIN, rd0 := some 1, rd1 := some 1 }).done = false) :=
  ⟨by decide, by decide, by decide,
    idle_byte_forwarded_unchanged initVars 1 (by decide) POLLIN POLLIN (some 1)
      (by decide) (by decide) (by decide)⟩

/-- C3: the console bytes `[ESC, ESC, 'x']` fed from Idle move the state
Idle -> SawOneEscape -> InCommand -> Idle and end the loop (the program
restores the terminal and returns 0); no byte is written to the serial device
and no break is issued. -/
theorem esc_esc_x_exits (v : Vars) :
    (eventLoop v STATE_IDLE [key ESC]).escape = STATE_PREFIX ∧
    (eventLoop v STATE_IDLE [key ESC]).status = none ∧
    (eventLoop v STATE_IDLE [key ESC, key ESC]).escape = STATE_COMMAND ∧
    (eventLoop v STATE_IDLE [key ESC, key ESC]).status = none ∧
    eventLoop v STATE_IDLE [key ESC, key ESC, key 120] =
      { trace := [Event.read_stdin, Event.read_stdin,
                  Event.stderr "\n[ (b)reak? e(x)it? ]\n",
                  Event.read_stdin, Event.stderr "[ exit ]\n",
                  Event.tcsetattr_saved, Event.tcflush_stdin]
        escape := STATE_IDLE
        status := some 0 } ∧
    serialBytes (eventLoop v STATE_IDLE [key ESC, key ESC, key 120]).trace = [] ∧
    breakCount (eventLoop v STATE_IDLE [key ESC, key ESC, key 120]).trace = 0 := by
  have h : eventLoop v STATE_IDLE [key ESC, key ESC, key 120] =
      { trace := [Event.read_stdin, Event.read_stdin,
                  Event.stderr "\n[ (b)reak? e(x)it? ]\n",
                  Event.read_stdin, Event.stderr "[ exit ]\n",
                  Event.tcsetattr_saved, Event.tcflush_stdin]
        escape := STATE_IDLE
        status := some 0 } := by
    simp [eventLoop, iteration_key, escapeSwitch, STATE_IDLE, ESC, stdin_raw_restore]
  refine ⟨?_, ?_, ?_, ?_, h, ?_, ?_⟩
  · simp [eventLoop, iteration_key, escapeSwitch, STATE_IDLE, STATE_PREFIX, ESC]
  · simp [eventLoop, iteration_key, escapeSwitch, STATE_IDLE, ESC]
  · simp [eventLoop, iteration_key, escapeSwitch, STATE_IDLE, STATE_COMMAND, ESC]
  · simp [eventLoop, iteration_key, escapeSwitch, STATE_IDLE, ESC]
  · rw [h]; rfl
  · rw [h]; simp [breakCount]

/-- C4: the console bytes `[ESC, ESC, 'b']` fed from Idle issue exactly one
break on the serial device, write no byte to it, do not end the loop, and leave
the state Idle. -/
theorem esc_esc_b_breaks (v : Vars) :
    eventLoop v STATE_IDLE [key ESC, key ESC, key 98] =
      { trace := [Event.read_stdin, Event.read_stdin,
                  Event.stderr "\n[ (b)reak? e(x)it? ]\n",
                  Event.read_stdin, Event.stderr "[ break ]\n", Event.tcsendbreak]
        escape := STATE_IDLE
        status := none } ∧
    breakCount (eventLoop v STATE_IDLE [key ESC, key ESC, key 98]).trace = 1 ∧
    serialBytes (eventLoop v STATE_IDLE [key ESC, key ESC, key 98]).trace = [] := by
  have h : eventLoop v STATE_IDLE [key ESC, key ESC, key 98] =
      { trace := [Event.read_stdin, Event.read_stdin,
                  Event.stderr "\n[ (b)reak? e(x)it? ]\n",
                  Event.read_stdin, Event.stderr "[ break ]\n", Event.tcsendbreak]
        escape := STATE_IDLE
        status := none } := by
    simp [eventLoop, iteration_key, escapeSwitch, STATE_IDLE, ESC]
  refine ⟨h, ?_, ?_⟩
  · rw [h]; simp [breakCount]
  · rw [h]; rfl

/-- C5: the console bytes `[ESC, ESC, ESC]` fed from Idle write exactly one ESC
byte to the serial device in total: none after the first byte, none after the
second, one with the third; the state returns to Idle and the loop goes on. -/
theorem esc_esc_esc_forwards_one (v : Vars) :
    serialBytes (eventLoop v STATE_IDLE [key ESC]).trace = [] ∧
    serialBytes (eventLoop v STATE_IDLE [key ESC, key ESC]).trace = [] ∧
    serialBytes (eventLoop v STATE_IDLE [key ESC, key ESC, key ESC]).trace = [ESC] ∧
    eventLoop v STATE_IDLE [key ESC, key ESC, key ESC] =
      { trace := [Event.read_stdin, Event.read_stdin,
                  Event.stderr "\n[ (b)reak? e(x)it? ]\n",
                  Event.read_stdin, Event.write_serial ESC]
        escape := STATE_IDLE
        status := none } := by
  have h : eventLoop v STATE_IDLE [key ESC, key ESC, key ESC] =
      { trace := [Event.read_stdin, Event.read_stdin,
                  Event.stderr "\n[ (b)reak? e(x)it? ]\n",
                  Event.read_stdin, Event.write_serial ESC]
        escape := STATE_IDLE
        status := none } := by
    simp [eventLoop, iteration_key, escapeSwitch, STATE_IDLE, ESC]
  refine ⟨?_, ?_, ?_, h⟩
  · simp [eventLoop, iteration_key, escapeSwitch, STATE_IDLE, ESC, serialBytes]
  · simp [eventLoop, iteration_key, escapeSwitch, STATE_IDLE, ESC, serialBytes]
  · rw [h]; rfl

/-- C10: for every finite sequence `s` of console bytes that holds no two
consecutive ESC bytes and does not end with ESC, feeding `s` one byte per
iteration from Idle makes the serial device receive exactly `s`, in order; no
break is issued, the loop does not end, and the final state is Idle. -/
theorem literal_escapes_never_lost (v : Vars) (s : List UInt8)
    (hpair : ¬ [ESC, ESC] <:+: s) (hlast : s.getLast? ≠ some ESC) :
    serialBytes (eventLoop v STATE_IDLE (s.map key)).trace = s ∧
    breakCount (eventLoop v STATE_IDLE (s.map key)).trace = 0 ∧
    (eventLoop v STATE_IDLE (s.map key)).status = none ∧
    (eventLoop v STATE_IDLE (s.map key)).escape = STATE_IDLE :=
  (eventLoop_keys_aux v s).1 hpair hlast

theorem literal_escapes_never_lost_witness :
    (¬ [ESC, ESC] <:+: [104, 27, 91, 65, 27, 120]) ∧
    [104, 27, 91, 65, 27, 120].getLast? ≠ some ESC ∧
    (serialBytes (eventLoop initVars STATE_IDLE
        ([104, 27, 91, 65, 27, 120].map key)).trace = [104, 27, 91, 65, 27, 120] ∧
    breakCount (eventLoop initVars STATE_IDLE
        ([104, 27, 91, 65, 27, 120].map key)).trace = 0 ∧
    (eventLoop initVars STATE_IDLE ([104, 27, 91, 65, 27, 120].map key)).status = none ∧
    (eventLoop initVars STATE_IDLE ([104, 27, 91, 65, 27, 120].map key)).escape
      = STATE_IDLE) :=
  ⟨by decide, by decide,
    literal_escapes_never_lost initVars [104, 27, 91, 65, 27, 120] (by decide) (by decide)⟩

/-! ## Device to console: the validity filter -/

/-- C8: in an iteration where `poll` reports POLLERR or POLLHUP on the console
or on the serial device, the loop ends at once: the only events are the
diagnostic and the restoration of the terminal, no `read` is made, nothing is
written to the device, the display or the log (also when a side is reported
readable), `escape` plays no part and is left as it was, and `main` returns 0.
The console is checked first: when both sides report the condition the
diagnostic is the console's. -/
theorem closed_descriptor_ends_loop (v : Vars) (escape : Nat) (r0 r1 : Nat)
    (rd0 rd1 : Option UInt8) (rest : List Input)
    (h : r0 &&& (POLLERR ||| POLLHUP) ≠ 0 ∨ r1 &&& (POLLERR ||| POLLHUP) ≠ 0) :
    eventLoop v escape ({ poll := PollResult.ok r0 r1, rd0 := rd0, rd1 := rd1 } :: rest) =
      { trace :=
          [Event.stderr (if r0 &&& (POLLERR ||| POLLHUP) ≠ 0
            then "\n[ stdin port closed ]\n" else "\n[ serial port closed ]\n"),
           Event.tcsetattr_saved, Event.tcflush_stdin]
        escape := escape
        status := some 0 } ∧
    readCount (eventLoop v escape
      ({ poll := PollResult.ok r0 r1, rd0 := rd0, rd1 := rd1 } :: rest)).trace = 0 ∧
    serialBytes (eventLoop v escape
      ({ poll := PollResult.ok r0 r1, rd0 := rd0, rd1 := rd1 } :: rest)).trace = [] ∧
    displayBytes (eventLoop v escape
      ({ poll := PollResult.ok r0 r1, rd0 := rd0, rd1 := rd1 } :: rest)).trace = [] ∧
    logBytes (eventLoop v escape
      ({ poll := PollResult.ok r0 r1, rd0 := rd0, rd1 := rd1 } :: rest)).trace = [] := by
  have hret : 0 < (PollResult.ok r0 r1).ret := by
    have hnz : r0 ≠ 0 ∨ r1 ≠ 0 := by
      rcases h with h | h
      · left
        intro h0
        apply h
        rw [h0]
        simp
      · right
        intro h0
        apply h
        rw [h0]
        simp
    simp only [PollResult.ret]
    rcases hnz with hnz | hnz
    · rw [if_neg hnz]
      split <;> decide
    · rw [if_neg hnz]
      split <;> decide
  have hrun : eventLoop v escape
      ({ poll := PollResult.ok r0 r1, rd0 := rd0, rd1 := rd1 } :: rest) =
      { trace :=
          [Event.stderr (if r0 &&& (POLLERR ||| POLLHUP) ≠ 0
            then "\n[ stdin port closed ]\n" else "\n[ serial port closed ]\n"),
           Event.tcsetattr_saved, Event.tcflush_stdin]
        escape := escape
        status := some 0 } := by
    by_cases h0 : r0 &&& (POLLERR ||| POLLHUP) ≠ 0
    · simp only [eventLoop, iteration, if_pos hret, if_pos h0, stdin_raw_restore]
      simp
    · have h1 : r1 &&& (POLLERR ||| POLLHUP) ≠ 0 := by
        rcases h with h | h
        · exact absurd h h0
        · exact h
      simp only [eventLoop, iteration, if_pos hret, if_neg h0, if_pos h1, stdin_raw_restore]
      simp
  rw [hrun]
  refine ⟨rfl, ?_, rfl, rfl, rfl⟩
  simp [readCount]

theorem closed_descriptor_ends_loop_witness :
    ((POLLHUP ||| POLLIN) &&& (POLLERR ||| POLLHUP) ≠ 0 ∨
      POLLIN &&& (POLLERR ||| POLLHUP) ≠ 0) ∧
    (eventLoop initVars STATE_PREFIX
      ({ poll := PollResult.ok (POLLHUP ||| POLLIN) POLLIN, rd0 := some 97, rd1 := some 98 }
        :: [key 99]) =
      { trace :=
          [Event.stderr (if (POLLHUP ||| POLLIN) &&& (POLLERR ||| POLLHUP) ≠ 0
            then "\n[ stdin port closed ]\n" else "\n[ serial port closed ]\n"),
           Event.tcsetattr_saved, Event.tcflush_stdin]
        escape := STATE_PREFIX
        status := some 0 } ∧
    readCount (eventLoop initVars STATE_PREFIX
      ({ poll := PollResult.ok (POLLHUP ||| POLLIN) POLLIN, rd0 := some 97, rd1 := some 98 }
        :: [key 99])).trace = 0 ∧
    serialBytes (eventLoop initVars STATE_PREFIX
      ({ poll := PollResult.ok (POLLHUP ||| POLLIN) POLLIN, rd0 := some 97, rd1 := some 98 }
        :: [key 99])).trace = [] ∧
    displayBytes (eventLoop initVars STATE_PREFIX
      ({ poll := PollResult.ok (POLLHUP ||| POLLIN) POLLIN, rd0 := some 97, rd1 := some 98 }
        :: [key 99])).trace = [] ∧
    logBytes (eventLoop initVars STATE_PREFIX
      ({ poll := PollResult.ok (POLLHUP ||| POLLIN) POLLIN, rd0 := some 97, rd1 := some 98 }
        :: [key 99])).trace = []) :=
  ⟨by decide,
    closed_descriptor_ends_loop initVars STATE_PREFIX (POLLHUP ||| POLLIN) POLLIN
      (some 97) (some 98) [key 99] (by decide)⟩

/-! ## Baud-rate resolution -/

/-- A value that fits a 32-bit `int` is not changed by the conversion. -/
theorem toInt32_of_fits (z : Int) (hlo : -2147483648 ≤ z) (hhi : z ≤ 2147483647) :
    toInt32 z = z := by
  unfold toInt32
  omega

/-- C7, as the claim states it, fails: the string "4294976896" parses to the
integer 4294976896 (that is 2^32 + 9600), which is none of 9600, 19200, 38400,
115200, yet `text2speed` gives B9600 and not B115200, because `atoi` delivers
the value as a 32-bit `int`. -/
theorem text2speed_wraps_beyond_int :
    strtol "4294976896".data = 4294976896 ∧
    atoi "4294976896" = 9600 ∧
    text2speed "4294976896" = speed_t.B9600 ∧
    ¬ (∀ s : String,
        strtol s.data ≠ 9600 → strtol s.data ≠ 19200 → strtol s.data ≠ 38400 →
        strtol s.data ≠ 115200 → text2speed s = speed_t.B115200) := by
  refine ⟨by decide, by decide, by decide, ?_⟩
  intro hall
  have h := hall "4294976896" (by decide) (by decide) (by decide) (by decide)
  exact absurd h (by decide)

/-- C7, amended: `text2speed` is defined on every string and its result is one
of B9600, B19200, B38400, B115200; "9600", "19200", "38400", "115200" give their
own rate; every string whose parsed integer value fits a 32-bit `int` and is
none of the four numbers gives B115200, among them "57600" and "abc" (which
parses as 0). -/
theorem text2speed_resolution :
    (∀ s : String,
      text2speed s = speed_t.B9600 ∨ text2speed s = speed_t.B19200 ∨
      text2speed s = speed_t.B38400 ∨ text2speed s = speed_t.B115200) ∧
    text2speed "9600" = speed_t.B9600 ∧
    text2speed "19200" = speed_t.B19200 ∧
    text2speed "38400" = speed_t.B38400 ∧
    text2speed "115200" = speed_t.B115200 ∧
    (∀ s : String,
      -2147483648 ≤ strtol s.data → strtol s.data ≤ 2147483647 →
      strtol s.data ≠ 9600 → strtol s.data ≠ 19200 → strtol s.data ≠ 38400 →
      strtol s.data ≠ 115200 → text2speed s = speed_t.B115200) ∧
    strtol "57600".data = 57600 ∧
    text2speed "57600" = speed_t.B115200 ∧
    strtol "abc".data = 0 ∧
    text2speed "abc" = speed_t.B115200 := by
  refine ⟨?_, by decide, by decide, by decide, by decide, ?_, by decide, by decide,
    by decide, by decide⟩
  · intro s
    unfold text2speed
    simp only
    split_ifs <;> simp
  · intro s hlo hhi h1 h2 h3 h4
    have hfit : atoi s = strtol s.data := toInt32_of_fits (strtol s.data) hlo hhi
    unfold text2speed
    simp only [hfit, if_neg h1, if_neg h2, if_neg h3, if_neg h4]

theorem text2speed_resolution_witness :
    -2147483648 ≤ strtol "57600".data ∧ strtol "57600".data ≤ 2147483647 ∧
    strtol "57600".data ≠ 9600 ∧ strtol "57600".data ≠ 19200 ∧
    strtol "57600".data ≠ 38400 ∧ strtol "57600".data ≠ 115200 ∧
    text2speed "57600" = speed_t.B115200 :=
  ⟨by decide, by decide, by decide, by decide, by decide, by decide,
    text2speed_resolution.2.2.2.2.2.1 "57600" (by decide) (by decide) (by decide)
      (by decide) (by decide) (by decide)⟩

/-! ## The log file -/

theorem foldl_writeByte (l pre tail : List UInt8) :
    (l.foldl writeByte { content := pre ++ tail, offset := pre.length }).content =
      pre ++ l ++ tail.drop l.length := by
  induction l generalizing pre tail with
  | nil => simp
  | cons c cs ih =>
    have hstep : writeByte { content := pre ++ tail, offset := pre.length } c =
        { content := (pre ++ [c]) ++ tail.drop 1, offset := (pre ++ [c]).length } := by
      simp [writeByte, List.drop_append]
    rw [List.foldl_cons, hstep, ih]
    simp [List.drop_drop, Nat.add_comm]

/-- What line 179 and line 269 do to the log file: the logged bytes replace
the file from its first byte on, and what the file held beyond them stays. -/
theorem logFileAfter_eq (existing : Option (List UInt8)) (es : List Event) :
    logFileAfter existing es =
      logBytes es ++ (existing.getD []).drop (logBytes es).length := by
  have h := foldl_writeByte (logBytes es) [] (existing.getD [])
  simpa [logFileAfter, openLog] using h

/-- C9, evaluated on the code: with `-lsession.log`, a log file that holds "AB"
and a session in which the device sends the one byte 'x', the byte logged is
'x' and the file ends up as "xB": the old content is overwritten from the
start, not kept with 'x' added after it ("ABx"). -/
theorem log_overwrites_existing_content :
    getoptLoop (fun _ => 3) initVars [Opt.l (some "session.log")] =
      Except.ok { initVars with logfile := "session.log", logfd := 3 } ∧
    logBytes (eventLoop { initVars with logfile := "session.log", logfd := 3 }
      STATE_IDLE [fromDevice 120]).trace = [120] ∧
    logFileAfter (some [65, 66])
      (eventLoop { initVars with logfile := "session.log", logfd := 3 }
        STATE_IDLE [fromDevice 120]).trace = [120, 66] ∧
    logFileAfter (some [65, 66])
      (eventLoop { initVars with logfile := "session.log", logfd := 3 }
        STATE_IDLE [fromDevice 120]).trace ≠ [65, 66] ++ [120] := by
  have ht : (eventLoop { initVars with logfile := "session.log", logfd := 3 }
      STATE_IDLE [fromDevice 120]).trace =
      [Event.read_serial, Event.write_stdout 120, Event.write_log 120] := by
    have hv : validInit[120 % UInt8.size]?.getD 0 = 1 := by
      rw [← List.getD_eq_getElem?_getD, getD_validInit]
      decide
    simp [eventLoop, iteration_fromDevice, serialPart, POLLIN, initVars, hv]
  rw [ht]
  refine ⟨rfl, rfl, ?_, ?_⟩
  · rw [logFileAfter_eq]
    decide
  · rw [logFileAfter_eq]
    decide

end Sconsole
